import Mathlib

/-!
Shallow embedding of the scene-graph geometry core of TrenchBroom
(`BrushNode.cpp` and `EntityNode.cpp`), over exact rational coordinates.

Geometric primitives whose implementation is not part of the excerpt
(`Brush::containsPoint`, `BrushFace::intersectWithRay`, the `vm` transforms
and ray-box intersection) are abstracted as function-valued fields or oracle
parameters; the control flow of the excerpt's functions is translated exactly.
The `NaN` sentinel used by the source for "no hit" is rendered as `Option`.
-/

namespace TrenchBroom

/-- A 3-dimensional vector with exact rational coordinates, standing in for
`vm::vec3`. -/
structure Vec3 where
  x : ℚ
  y : ℚ
  z : ℚ
deriving DecidableEq

def Vec3.add (a b : Vec3) : Vec3 := ⟨a.x + b.x, a.y + b.y, a.z + b.z⟩

def Vec3.sub (a b : Vec3) : Vec3 := ⟨a.x - b.x, a.y - b.y, a.z - b.z⟩

def Vec3.smul (c : ℚ) (a : Vec3) : Vec3 := ⟨c * a.x, c * a.y, c * a.z⟩

/-- Componentwise order on vectors, as used by `vm::bbox3` queries. -/
def Vec3.le (a b : Vec3) : Bool :=
  a.x ≤ b.x && a.y ≤ b.y && a.z ≤ b.z

/-- An axis-aligned bounding box, standing in for `vm::bbox3`. -/
structure BBox where
  lo : Vec3
  hi : Vec3
deriving DecidableEq

/-- Modelled from the spec: `vm::bbox3::contains(bbox3)` is not in the
excerpt; a box contains another box when the other lies inside it
componentwise (inclusive). -/
def BBox.containsBox (a b : BBox) : Bool :=
  Vec3.le a.lo b.lo && Vec3.le b.hi a.hi

/-- Modelled from the spec: `vm::bbox3::intersects(bbox3)` is not in the
excerpt; two boxes intersect when they overlap on every axis (inclusive). -/
def BBox.intersectsBox (a b : BBox) : Bool :=
  Vec3.le a.lo b.hi && Vec3.le b.lo a.hi

/-- Modelled from the spec: `vm::bbox3::contains(vec3)` is not in the
excerpt; a box contains a point lying inside it componentwise (inclusive). -/
def BBox.containsPoint (a : BBox) (p : Vec3) : Bool :=
  Vec3.le a.lo p && Vec3.le p a.hi

def BBox.translate (a : BBox) (v : Vec3) : BBox :=
  ⟨a.lo.add v, a.hi.add v⟩

def BBox.merge (a b : BBox) : BBox :=
  ⟨⟨min a.lo.x b.lo.x, min a.lo.y b.lo.y, min a.lo.z b.lo.z⟩,
   ⟨max a.hi.x b.hi.x, max a.hi.y b.hi.y, max a.hi.z b.hi.z⟩⟩

/-- A box is well formed when its low corner is below its high corner. -/
def BBox.valid (a : BBox) : Bool := Vec3.le a.lo a.hi

/-- A ray (or unnormalized segment parametrization), standing in for
`vm::ray3`. -/
structure Ray where
  origin : Vec3
  direction : Vec3

def Ray.pointAtDistance (r : Ray) (d : ℚ) : Vec3 :=
  r.origin.add (Vec3.smul d r.direction)

/-- One face of a brush. The selection flag is the face's `m_selected`;
`intersectWithRay` abstracts `BrushFace::intersectWithRay`, whose geometry is
not part of the excerpt, with `none` standing for the source's `NaN`. -/
structure Face where
  selected : Bool
  intersectWithRay : Ray → Option ℚ

/-- A convex solid value (`Brush`). Its derived bounding box and the
point-containment predicate are abstracted as data, since `Brush.cpp` is not
part of the excerpt; the face list is kept in stored order. -/
structure Brush where
  bounds : BBox
  containsPoint : Vec3 → Bool
  faces : List Face

/-- A sampled patch grid (`PatchGrid`): row/column counts, row-major sample
positions, and a bounding box. `point row col` mirrors `grid.point(row, col)`
as a row-major lookup. -/
structure PatchGrid where
  pointRowCount : Nat
  pointColumnCount : Nat
  points : List Vec3
  bounds : BBox

def PatchGrid.point (g : PatchGrid) (row col : Nat) : Vec3 :=
  (g.points.getD (row * g.pointColumnCount + col) ⟨0, 0, 0⟩)

/-- Translation of the static helper `containsPatch` in `BrushNode.cpp`:
bounds fast-reject, then every grid sample must lie inside the brush. -/
def containsPatch (brush : Brush) (grid : PatchGrid) : Bool :=
  if !(brush.bounds.containsBox grid.bounds) then false
  else grid.points.all (fun p => brush.containsPoint p)

/-- Translation of the static helper `faceIntersectsEdge` in `BrushNode.cpp`:
the segment from `p0` to `p1` is cast as an unnormalized ray and the face hit
must fall at a parameter within `[0, 1]`. -/
def faceIntersectsEdge (face : Face) (p0 p1 : Vec3) : Bool :=
  match face.intersectWithRay ⟨p0, p1.sub p0⟩ with
  | some dist => decide (0 ≤ dist ∧ dist ≤ 1)
  | none => false

/-- Translation of the static helper `intersectsPatch` in `BrushNode.cpp`:
bounds fast-reject; then any contained grid sample point counts as an
intersection; then every row-adjacent and column-adjacent sample pair is
tested as a segment against every face. -/
def intersectsPatch (brush : Brush) (grid : PatchGrid) : Bool :=
  if !(brush.bounds.intersectsBox grid.bounds) then false
  else if grid.points.any (fun p => brush.containsPoint p) then true
  else
    brush.faces.any (fun face =>
      ((List.range grid.pointRowCount).any (fun row =>
        (List.range (grid.pointColumnCount - 1)).any (fun col =>
          faceIntersectsEdge face (grid.point row col) (grid.point row (col + 1)))))
      ||
      ((List.range grid.pointColumnCount).any (fun col =>
        (List.range (grid.pointRowCount - 1)).any (fun row =>
          faceIntersectsEdge face (grid.point row col) (grid.point (row + 1) col)))))

/-- The closed scene-node classification, with the payload each case of
`BrushNode::contains` / `BrushNode::intersects` consults: groups and
entities contribute their logical bounds, brushes their brush value, patches
their grid. World and layer nodes also carry bounds, which those functions
ignore. -/
inductive Node where
  | world (logicalBounds : BBox)
  | layer (logicalBounds : BBox)
  | group (logicalBounds : BBox)
  | entity (logicalBounds : BBox)
  | brush (b : Brush)
  | patch (g : PatchGrid)

/-- The brush-vs-box and brush-vs-brush predicates of `Brush.cpp`, which is
not part of the excerpt, abstracted as an operation table. -/
structure BrushOps where
  containsBox : Brush → BBox → Bool
  containsBrush : Brush → Brush → Bool
  intersectsBox : Brush → BBox → Bool
  intersectsBrush : Brush → Brush → Bool

/-- Translation of `BrushNode::contains`: dispatch on the other node's
classification. -/
def BrushNode.contains (ops : BrushOps) (m : Brush) : Node → Bool
  | Node.world _ => false
  | Node.layer _ => false
  | Node.group lb => ops.containsBox m lb
  | Node.entity lb => ops.containsBox m lb
  | Node.brush b => ops.containsBrush m b
  | Node.patch g => containsPatch m g

/-- Translation of `BrushNode::intersects`: dispatch on the other node's
classification. -/
def BrushNode.intersects (ops : BrushOps) (m : Brush) : Node → Bool
  | Node.world _ => false
  | Node.layer _ => false
  | Node.group lb => ops.intersectsBox m lb
  | Node.entity lb => ops.intersectsBox m lb
  | Node.brush b => ops.intersectsBrush m b
  | Node.patch g => intersectsPatch m g

/-- Translation of the face loop in `BrushNode::findFaceHit`: walk the faces
in stored order, returning the distance and index of the first face whose
ray intersection is defined. -/
def findFaceHitAux (ray : Ray) : List Face → Option (ℚ × Nat)
  | [] => none
  | f :: rest =>
    match f.intersectWithRay ray with
    | some dist => some (dist, 0)
    | none => (findFaceHitAux ray rest).map (fun p => (p.1, p.2 + 1))

/-- Translation of `BrushNode::findFaceHit`: the ray is first tested against
the brush's bounding box (via `vm::intersect_ray_bbox`, abstracted as the
oracle `rayBBox`, with `none` for `NaN`); only on a bounds hit are the
individual faces walked. -/
def BrushNode.findFaceHit (rayBBox : Ray → BBox → Option ℚ) (m : Brush)
    (ray : Ray) : Option (ℚ × Nat) :=
  if (rayBBox ray m.bounds).isSome then findFaceHitAux ray m.faces
  else none

/-- Instrumentation: how many `intersectWithRay` calls the face loop of
`findFaceHit` performs (the loop stops at the first defined hit). -/
def faceTestsAux (ray : Ray) : List Face → Nat
  | [] => 0
  | f :: rest =>
    1 + (if (f.intersectWithRay ray).isSome then 0 else faceTestsAux ray rest)

/-- Instrumentation: total number of individual face-intersection tests
performed by `BrushNode::findFaceHit`. -/
def BrushNode.findFaceHitTests (rayBBox : Ray → BBox → Option ℚ) (m : Brush)
    (ray : Ray) : Nat :=
  if (rayBBox ray m.bounds).isSome then faceTestsAux ray m.faces
  else 0

/-- The width of `size_t`, the type of `m_selectedFaceCount`. -/
def sizeTMod : Nat := 2 ^ 64

/-- The mutable state of a `BrushNode`: the wrapped brush value and the
per-node selected-face counter `m_selectedFaceCount` (a `size_t`, so counter
arithmetic wraps modulo `2^64`). -/
structure BrushNodeState where
  brush : Brush
  selectedFaceCount : Nat

/-- Update the face at a given index, leaving the list unchanged when the
index is out of range (mirrors indexed access into `m_brush.faces()`). -/
def modifyFace : List Face → Nat → (Face → Face) → List Face
  | [], _, _ => []
  | f :: rest, 0, g => g f :: rest
  | f :: rest, Nat.succ n, g => f :: modifyFace rest n g

/-- Number of faces whose selection flag is set. -/
def countSelectedFaces : List Face → Nat
  | [] => 0
  | f :: rest => (if f.selected then 1 else 0) + countSelectedFaces rest

/-- Translation of `BrushNode::hasSelectedFaces`: reads only the counter. -/
def BrushNodeState.hasSelectedFaces (s : BrushNodeState) : Bool :=
  decide (s.selectedFaceCount > 0)

/-- Translation of `BrushNode::selectFace`: set the face's selection flag and
increment the counter (wrapping as `size_t`). -/
def BrushNodeState.selectFace (s : BrushNodeState) (i : Nat) : BrushNodeState :=
  { brush :=
      { s.brush with faces := modifyFace s.brush.faces i (fun f => { f with selected := true }) },
    selectedFaceCount := (s.selectedFaceCount + 1) % sizeTMod }

/-- Translation of `BrushNode::deselectFace`: clear the face's selection flag
and decrement the counter (wrapping as `size_t`). -/
def BrushNodeState.deselectFace (s : BrushNodeState) (i : Nat) : BrushNodeState :=
  { brush :=
      { s.brush with faces := modifyFace s.brush.faces i (fun f => { f with selected := false }) },
    selectedFaceCount := (s.selectedFaceCount + (sizeTMod - 1)) % sizeTMod }

/-- Translation of `BrushNode::updateSelectedFaceCount`: full rescan of the
face list. -/
def BrushNodeState.updateSelectedFaceCount (s : BrushNodeState) : BrushNodeState :=
  { s with selectedFaceCount := countSelectedFaces s.brush.faces }

/-- Translation of the brush-replacing part of `BrushNode::setBrush`: swap in
the new brush value, then resynchronize the counter by a full rescan. -/
def BrushNodeState.setBrush (s : BrushNodeState) (b : Brush) : BrushNodeState :=
  BrushNodeState.updateSelectedFaceCount { s with brush := b }

/-- Translation of the loop body of `BrushNode::clearSelectedFaces`: deselect
each face that is currently selected. -/
def clearFaces (l : List Face) : List Face :=
  l.map (fun f => if f.selected then { f with selected := false } else f)

/-- Translation of `BrushNode::clearSelectedFaces`: deselect every selected
face and zero the counter. -/
def BrushNodeState.clearSelectedFaces (s : BrushNodeState) : BrushNodeState :=
  { brush := { s.brush with faces := clearFaces s.brush.faces },
    selectedFaceCount := 0 }

/-- Translation of the `BrushNode` constructor: store the brush value, then
call `clearSelectedFaces`. The counter's in-class initializer is `0`. -/
def mkBrushNode (b : Brush) : BrushNodeState :=
  BrushNodeState.clearSelectedFaces { brush := b, selectedFaceCount := 0 }

/-- A face-selection operation on a brush node. -/
inductive FaceOp where
  | sel (i : Nat)
  | desel (i : Nat)

def applyFaceOp (s : BrushNodeState) : FaceOp → BrushNodeState
  | FaceOp.sel i => s.selectFace i
  | FaceOp.desel i => s.deselectFace i

def applyFaceOps (s : BrushNodeState) : List FaceOp → BrushNodeState
  | [] => s
  | op :: rest => applyFaceOps (applyFaceOp s op) rest

/-- An operation is well formed when its index is in range and it selects an
unselected face, or deselects a selected one. -/
def validFaceOp (s : BrushNodeState) : FaceOp → Prop
  | FaceOp.sel i => ∃ f, s.brush.faces.get? i = some f ∧ f.selected = false
  | FaceOp.desel i => ∃ f, s.brush.faces.get? i = some f ∧ f.selected = true

def validFaceOps (s : BrushNodeState) : List FaceOp → Prop
  | [] => True
  | op :: rest => validFaceOp s op ∧ validFaceOps (applyFaceOp s op) rest

/-- The inverse of a model transformation, as needed by `EntityNode::doPick`:
it is applied to the pick ray. -/
structure InvTransform where
  applyRay : Ray → Ray

/-- An abstract affine model transformation (`vm::mat4x4`, not part of the
excerpt): how it acts on boxes and points, and its inverse when it is
invertible (`none` when `vm::invert` fails). -/
structure Transform where
  applyBBox : BBox → BBox
  applyPoint : Vec3 → Vec3
  inverse : Option InvTransform

/-- An attached visual model (`Assets::EntityModelFrame`): its model-space
bounds and its model-space ray intersection, `none` for `NaN`. -/
structure EntityModel where
  bounds : BBox
  intersect : Ray → Option ℚ

/-- An entity definition: a point-entity definition carries bounds, any other
definition kind does not (the source discovers this with a `dynamic_cast` to
`Assets::PointEntityDefinition`). -/
inductive EntityDefinition where
  | pointDef (bounds : BBox)
  | otherDef

/-- The entity value wrapped by an `EntityNode`: optional attached model, its
transformation, the origin, the optional definition, and the point-entity
flag maintained by `setPointEntity`. -/
structure Entity where
  model : Option EntityModel
  modelTransformation : Transform
  origin : Vec3
  definition : Option EntityDefinition
  pointEntity : Bool

/-- Modelled from the spec: `Entity::setPointEntity` (not in the excerpt)
records whether the entity is a point entity. -/
def Entity.setPointEntity (e : Entity) (b : Bool) : Entity :=
  { e with pointEntity := b }

/-- A child node of an entity, reduced to what the entity's bounds
computation consults: the child's logical and physical bounds. -/
structure ChildNode where
  logicalBounds : BBox
  physicalBounds : BBox
deriving DecidableEq

/-- The per-entity bounds cache entry (`CachedBounds`). -/
structure CachedBounds where
  modelBounds : BBox
  logicalBounds : BBox
  physicalBounds : BBox
deriving DecidableEq

/-- The state of an `EntityNode`: its entity value, its children, and the
cached-bounds slot whose emptiness is the dirty flag. -/
structure EntityNode where
  entity : Entity
  children : List ChildNode
  cachedBounds : Option CachedBounds

def EntityNode.hasChildren (s : EntityNode) : Bool :=
  !s.children.isEmpty

/-- Translation of `EntityNode::DefaultBounds = vm::bbox3{8.0}`: the cube
from `(-8, -8, -8)` to `(8, 8, 8)`. -/
def DefaultBounds : BBox := ⟨⟨-8, -8, -8⟩, ⟨8, 8, 8⟩⟩

/-- Translation of `vm::bbox3(0.0)`, the default value handed to the child
bounds computations: the degenerate box at the origin. -/
def zeroBounds : BBox := ⟨⟨0, 0, 0⟩, ⟨0, 0, 0⟩⟩

/-- Modelled from the spec: `computeLogicalBounds` (in `ModelUtils`, not in
the excerpt) returns the union of the children's logical bounds, or the
supplied default when there are no children. -/
def computeLogicalBounds (children : List ChildNode) (dflt : BBox) : BBox :=
  match children with
  | [] => dflt
  | c :: rest => rest.foldl (fun acc x => acc.merge x.logicalBounds) c.logicalBounds

/-- Modelled from the spec: `computePhysicalBounds` (in `ModelUtils`, not in
the excerpt) returns the union of the children's physical bounds, or the
supplied default when there are no children. -/
def computePhysicalBounds (children : List ChildNode) (dflt : BBox) : BBox :=
  match children with
  | [] => dflt
  | c :: rest => rest.foldl (fun acc x => acc.merge x.physicalBounds) c.physicalBounds

/-- The from-scratch recomputation performed by `EntityNode::validateBounds`
once the cache slot is found empty, as a pure function of the entity value
and the children. -/
def computeCachedBounds (e : Entity) (children : List ChildNode) : CachedBounds :=
  let modelB :=
    match e.model with
    | some m => e.modelTransformation.applyBBox m.bounds
    | none => e.modelTransformation.applyBBox DefaultBounds
  if !children.isEmpty then
    { modelBounds := modelB,
      logicalBounds := computeLogicalBounds children zeroBounds,
      physicalBounds := computePhysicalBounds children zeroBounds }
  else
    let definitionBounds :=
      match e.definition with
      | some (EntityDefinition.pointDef b) => b
      | _ => DefaultBounds
    let logicalB := definitionBounds.translate e.origin
    { modelBounds := modelB,
      logicalBounds := logicalB,
      physicalBounds :=
        match e.model with
        | some _ => logicalB.merge modelB
        | none => logicalB }

/-- Translation of `EntityNode::invalidateBounds`: empty the cache slot. -/
def EntityNode.invalidateBounds (s : EntityNode) : EntityNode :=
  { s with cachedBounds := none }

/-- Translation of `EntityNode::validateBounds`, instrumented with a flag
recording whether a recomputation happened: a filled slot returns
immediately, an empty slot is filled from scratch. -/
def EntityNode.validateBounds (s : EntityNode) : EntityNode × Bool :=
  match s.cachedBounds with
  | some _ => (s, false)
  | none => ({ s with cachedBounds := some (computeCachedBounds s.entity s.children) }, true)

/-- The cache entry a validated node holds. -/
def EntityNode.currentBounds (s : EntityNode) : CachedBounds :=
  match s.cachedBounds with
  | some cb => cb
  | none => computeCachedBounds s.entity s.children

/-- Translation of `EntityNode::doGetLogicalBounds`: validate, then read the
slot; the returned triple is the value, the post-read state, and whether a
recomputation happened. -/
def EntityNode.readLogicalBounds (s : EntityNode) : BBox × EntityNode × Bool :=
  match s.validateBounds with
  | (s1, recomputed) => (s1.currentBounds.logicalBounds, s1, recomputed)

/-- Translation of `EntityNode::doGetPhysicalBounds`, instrumented like
`readLogicalBounds`. -/
def EntityNode.readPhysicalBounds (s : EntityNode) : BBox × EntityNode × Bool :=
  match s.validateBounds with
  | (s1, recomputed) => (s1.currentBounds.physicalBounds, s1, recomputed)

/-- Translation of `EntityNode::modelBounds`, instrumented like
`readLogicalBounds`. -/
def EntityNode.readModelBounds (s : EntityNode) : BBox × EntityNode × Bool :=
  match s.validateBounds with
  | (s1, recomputed) => (s1.currentBounds.modelBounds, s1, recomputed)

/-- The logical-bounds value a read of `logicalBounds()` yields. -/
def EntityNode.logicalBoundsVal (s : EntityNode) : BBox :=
  s.currentBounds.logicalBounds

/-- The physical-bounds value a read of `physicalBounds()` yields. -/
def EntityNode.physicalBoundsVal (s : EntityNode) : BBox :=
  s.currentBounds.physicalBounds

/-- Translation of `EntityNode::doCanAddChild`: only brushes and patches may
become children of an entity. -/
def EntityNode.doCanAddChild : Node → Bool
  | Node.world _ => false
  | Node.layer _ => false
  | Node.group _ => false
  | Node.entity _ => false
  | Node.brush _ => true
  | Node.patch _ => true

/-- Adding a child: the base class appends the child, then
`doChildWasAdded` recomputes the point-entity flag from `!hasChildren()` and
`nodePhysicalBoundsDidChange` invalidates the bounds cache. -/
def EntityNode.addChild (s : EntityNode) (c : ChildNode) : EntityNode :=
  let s1 : EntityNode := { s with children := s.children ++ [c] }
  EntityNode.invalidateBounds
    { s1 with entity := s1.entity.setPointEntity (!s1.hasChildren) }

/-- Removing the child at an index: the base class removes it, then
`doChildWasRemoved` recomputes the point-entity flag from `!hasChildren()`
and `nodePhysicalBoundsDidChange` invalidates the bounds cache. -/
def EntityNode.removeChild (s : EntityNode) (i : Nat) : EntityNode :=
  let s1 : EntityNode := { s with children := s.children.eraseIdx i }
  EntityNode.invalidateBounds
    { s1 with entity := s1.entity.setPointEntity (!s1.hasChildren) }

/-- A record appended to the pick accumulator. -/
structure PickHit where
  distance : ℚ
  hitPoint : Vec3
deriving DecidableEq

/-- The bounding-box stage of `EntityNode::doPick`: when the ray origin lies
outside the logical bounds, intersect the ray with them (via
`vm::intersect_ray_bbox`, abstracted as the oracle `rayBBox`). -/
def EntityNode.boundsHit (rayBBox : Ray → BBox → Option ℚ) (s : EntityNode)
    (ray : Ray) : Option PickHit :=
  let myBounds := s.logicalBoundsVal
  if !myBounds.containsPoint ray.origin then
    match rayBBox ray myBounds with
    | some dist => some ⟨dist, ray.pointAtDistance dist⟩
    | none => none
  else none

/-- Translation of `EntityNode::doPick`, instrumented with a flag recording
whether the attached model's `intersect` was consulted: a childless, visible
entity first tries the bounding-box stage and stops on its hit; otherwise,
when a model is attached and its transformation is invertible, the ray is
taken to model space and the model is intersected; a non-invertible
transformation skips the model test silently. The result is the list of
appended hits. -/
def EntityNode.doPick (rayBBox : Ray → BBox → Option ℚ) (s : EntityNode)
    (visible : Bool) (ray : Ray) : List PickHit × Bool :=
  if !s.hasChildren && visible then
    match EntityNode.boundsHit rayBBox s ray with
    | some h => ([h], false)
    | none =>
      match s.entity.model with
      | some m =>
        match s.entity.modelTransformation.inverse with
        | some inv =>
          let transformedRay := inv.applyRay ray
          match m.intersect transformedRay with
          | some dist =>
            ([⟨dist,
               s.entity.modelTransformation.applyPoint
                 (transformedRay.pointAtDistance dist)⟩], true)
          | none => ([], true)
        | none => ([], false)
      | none => ([], false)
  else ([], false)

/-! ### Theorems -/

/-- C4: for every brush node and every world or layer node, both `contains`
and `intersects` return `false`, whatever the brush's geometry and whatever
bounds the world or layer node carries. -/
theorem brushNode_world_layer_always_false :
    ∀ (ops : BrushOps) (m : Brush) (lb : BBox),
      BrushNode.contains ops m (Node.world lb) = false ∧
      BrushNode.contains ops m (Node.layer lb) = false ∧
      BrushNode.intersects ops m (Node.world lb) = false ∧
      BrushNode.intersects ops m (Node.layer lb) = false := by
  intro ops m lb
  exact ⟨rfl, rfl, rfl, rfl⟩

/-- C10: a freshly constructed brush node has every face's selection flag
cleared and a zero selected-face counter, so `hasSelectedFaces` is `false`,
even when faces of the passed-in brush value were selected. -/
theorem mkBrushNode_clears_selection :
    ∀ b : Brush,
      (mkBrushNode b).brush.faces.all (fun f => !f.selected) = true ∧
      (mkBrushNode b).selectedFaceCount = 0 ∧
      (mkBrushNode b).hasSelectedFaces = false := by
  intro b
  refine ⟨?_, rfl, rfl⟩
  simp only [mkBrushNode, BrushNodeState.clearSelectedFaces, clearFaces,
    List.all_eq_true, List.mem_map]
  rintro x ⟨f, -, rfl⟩
  cases h : f.selected <;> simp [h]

/-- C8: an entity node accepts exactly brush and patch children, and both
adding and removing a child recompute the point-entity flag (point entity iff
childless) and empty the bounds cache. -/
theorem entityNode_child_rules :
    (∀ lb, EntityNode.doCanAddChild (Node.world lb) = false) ∧
    (∀ lb, EntityNode.doCanAddChild (Node.layer lb) = false) ∧
    (∀ lb, EntityNode.doCanAddChild (Node.group lb) = false) ∧
    (∀ lb, EntityNode.doCanAddChild (Node.entity lb) = false) ∧
    (∀ b, EntityNode.doCanAddChild (Node.brush b) = true) ∧
    (∀ g, EntityNode.doCanAddChild (Node.patch g) = true) ∧
    (∀ (s : EntityNode) (c : ChildNode),
      (s.addChild c).entity.pointEntity = (s.addChild c).children.isEmpty ∧
      (s.addChild c).cachedBounds = none) ∧
    (∀ (s : EntityNode) (i : Nat),
      (s.removeChild i).entity.pointEntity = (s.removeChild i).children.isEmpty ∧
      (s.removeChild i).cachedBounds = none) := by
  refine ⟨fun lb => rfl, fun lb => rfl, fun lb => rfl, fun lb => rfl,
    fun b => rfl, fun g => rfl, ?_, ?_⟩
  · intro s c
    constructor
    · simp [EntityNode.addChild, EntityNode.invalidateBounds,
        Entity.setPointEntity, EntityNode.hasChildren]
    · rfl
  · intro s i
    constructor
    · simp [EntityNode.removeChild, EntityNode.invalidateBounds,
        Entity.setPointEntity, EntityNode.hasChildren]
    · rfl

/-- C3: emptiness of the cached-bounds slot is the sole dirty indicator:
`invalidateBounds` empties the slot; a read of any of the three bounds while
the slot is empty returns the from-scratch recomputation over the node's
current entity value (model, definition, origin) and children and stores it;
a read while the slot is filled returns the stored entry with no
recomputation. -/
theorem entityNode_bounds_cache_protocol (s : EntityNode) :
    (s.invalidateBounds).cachedBounds = none ∧
    (s.cachedBounds = none →
      s.readLogicalBounds =
        ((computeCachedBounds s.entity s.children).logicalBounds,
         { s with cachedBounds := some (computeCachedBounds s.entity s.children) }, true) ∧
      s.readPhysicalBounds =
        ((computeCachedBounds s.entity s.children).physicalBounds,
         { s with cachedBounds := some (computeCachedBounds s.entity s.children) }, true) ∧
      s.readModelBounds =
        ((computeCachedBounds s.entity s.children).modelBounds,
         { s with cachedBounds := some (computeCachedBounds s.entity s.children) }, true)) ∧
    (∀ cb, s.cachedBounds = some cb →
      s.readLogicalBounds = (cb.logicalBounds, s, false) ∧
      s.readPhysicalBounds = (cb.physicalBounds, s, false) ∧
      s.readModelBounds = (cb.modelBounds, s, false)) := by
  refine ⟨rfl, ?_, ?_⟩
  · intro h
    refine ⟨?_, ?_, ?_⟩ <;>
      simp [EntityNode.readLogicalBounds, EntityNode.readPhysicalBounds,
        EntityNode.readModelBounds, EntityNode.validateBounds,
        EntityNode.currentBounds, h]
  · intro cb h
    refine ⟨?_, ?_, ?_⟩ <;>
      simp [EntityNode.readLogicalBounds, EntityNode.readPhysicalBounds,
        EntityNode.readModelBounds, EntityNode.validateBounds,
        EntityNode.currentBounds, h]

/-- The identity transformation, used for concrete example nodes. -/
def idTransform : Transform :=
  { applyBBox := fun b => b, applyPoint := fun p => p, inverse := none }

/-- A concrete childless entity node at origin `(1, 2, 3)` with no model, no
definition and an empty bounds cache. -/
def exampleEntityNode : EntityNode :=
  { entity :=
      { model := none, modelTransformation := idTransform, origin := ⟨1, 2, 3⟩,
        definition := none, pointEntity := true },
    children := [],
    cachedBounds := none }

/-- Witness for C3: a read on the concrete dirty node recomputes. -/
theorem entityNode_bounds_cache_protocol_example :
    (EntityNode.readLogicalBounds exampleEntityNode).2.2 = true := by
  have h := ((entityNode_bounds_cache_protocol exampleEntityNode).2.1 rfl).1
  rw [h]

/-- C7: a childless entity node with no attached model and no point-entity
definition has logical bounds equal to the default size-16 box translated by
its origin, and physical bounds equal to those logical bounds. -/
theorem entityNode_default_bounds (s : EntityNode)
    (hcache : s.cachedBounds = none)
    (hch : s.children = [])
    (hm : s.entity.model = none)
    (hdef : ∀ b, s.entity.definition ≠ some (EntityDefinition.pointDef b)) :
    s.logicalBoundsVal = DefaultBounds.translate s.entity.origin ∧
    s.physicalBoundsVal = s.logicalBoundsVal ∧
    DefaultBounds.translate s.entity.origin =
      ⟨⟨s.entity.origin.x - 8, s.entity.origin.y - 8, s.entity.origin.z - 8⟩,
       ⟨s.entity.origin.x + 8, s.entity.origin.y + 8, s.entity.origin.z + 8⟩⟩ := by
  have hdb : (match s.entity.definition with
      | some (EntityDefinition.pointDef b) => b
      | _ => DefaultBounds) = DefaultBounds := by
    cases h : s.entity.definition with
    | none => rfl
    | some d =>
      cases d with
      | pointDef b => exact absurd h (hdef b)
      | otherDef => rfl
  refine ⟨?_, ?_, ?_⟩
  · simp [EntityNode.logicalBoundsVal, EntityNode.currentBounds, hcache,
      computeCachedBounds, hch, hm, hdb]
  · simp [EntityNode.logicalBoundsVal, EntityNode.physicalBoundsVal,
      EntityNode.currentBounds, hcache, computeCachedBounds, hch, hm, hdb]
  · simp only [BBox.translate, Vec3.add, DefaultBounds, BBox.mk.injEq,
      Vec3.mk.injEq]
    refine ⟨⟨by ring, by ring, by ring⟩, by ring, by ring, by ring⟩

/-- Witness for C7: the concrete node's bounds evaluate to the translated
default box. -/
theorem entityNode_default_bounds_example :
    EntityNode.logicalBoundsVal exampleEntityNode = ⟨⟨-7, -6, -5⟩, ⟨9, 10, 11⟩⟩ ∧
    EntityNode.physicalBoundsVal exampleEntityNode = ⟨⟨-7, -6, -5⟩, ⟨9, 10, 11⟩⟩ := by
  have h := entityNode_default_bounds exampleEntityNode rfl rfl rfl (by intro b h; cases h)
  refine ⟨?_, ?_⟩
  · rw [h.1, h.2.2]
    norm_num [exampleEntityNode, BBox.mk.injEq, Vec3.mk.injEq]
  · rw [h.2.1, h.1, h.2.2]
    norm_num [exampleEntityNode, BBox.mk.injEq, Vec3.mk.injEq]

/-- C6: for a childless, visible entity node, `doPick` stops with exactly one
hit when the bounding-box stage hits, and then never consults the model; the
model is consulted only when the bounding-box stage yields no hit; a
non-invertible model transformation skips the model test silently with no
hit; an absent model likewise yields no hit; every outcome is an explicit
value, never an error. -/
theorem entityNode_doPick_protocol (rayBBox : Ray → BBox → Option ℚ)
    (s : EntityNode) (ray : Ray) (hch : s.children = []) :
    (∀ h, EntityNode.boundsHit rayBBox s ray = some h →
      EntityNode.doPick rayBBox s true ray = ([h], false)) ∧
    ((EntityNode.doPick rayBBox s true ray).2 = true →
      EntityNode.boundsHit rayBBox s ray = none) ∧
    (∀ m inv d, s.entity.model = some m →
      s.entity.modelTransformation.inverse = some inv →
      EntityNode.boundsHit rayBBox s ray = none →
      m.intersect (inv.applyRay ray) = some d →
      EntityNode.doPick rayBBox s true ray =
        ([⟨d, s.entity.modelTransformation.applyPoint
            ((inv.applyRay ray).pointAtDistance d)⟩], true)) ∧
    (∀ m, s.entity.model = some m →
      s.entity.modelTransformation.inverse = none →
      EntityNode.boundsHit rayBBox s ray = none →
      EntityNode.doPick rayBBox s true ray = ([], false)) ∧
    (s.entity.model = none →
      EntityNode.boundsHit rayBBox s ray = none →
      EntityNode.doPick rayBBox s true ray = ([], false)) := by
  have hnc : s.hasChildren = false := by
    simp [EntityNode.hasChildren, hch]
  refine ⟨?_, ?_, ?_, ?_, ?_⟩
  · intro h hb
    simp [EntityNode.doPick, hnc, hb]
  · intro hflag
    cases hb : EntityNode.boundsHit rayBBox s ray with
    | none => rfl
    | some h =>
      rw [show EntityNode.doPick rayBBox s true ray = ([h], false) by
        simp [EntityNode.doPick, hnc, hb]] at hflag
      cases hflag
  · intro m inv d hm hinv hb hit
    simp [EntityNode.doPick, hnc, hb, hm, hinv, hit]
  · intro m hm hinv hb
    simp [EntityNode.doPick, hnc, hb, hm, hinv]
  · intro hm hb
    simp [EntityNode.doPick, hnc, hb, hm]

/-- A bounding-box intersection oracle reporting a hit at distance 2
everywhere, used for concrete pick examples. -/
def exampleRayBBox : Ray → BBox → Option ℚ := fun _ _ => some 2

/-- A concrete pick ray starting outside the example node's bounds. -/
def exampleRay : Ray := ⟨⟨20, 0, 0⟩, ⟨-1, 0, 0⟩⟩

/-- A concrete childless entity node at the origin with no model, no
definition and an empty bounds cache. -/
def exampleEntityNodeAtOrigin : EntityNode :=
  { entity :=
      { model := none, modelTransformation := idTransform, origin := ⟨0, 0, 0⟩,
        definition := none, pointEntity := true },
    children := [],
    cachedBounds := none }

/-- Witness for C6: on the concrete node the bounding-box stage hits at
distance 2, so the pick yields exactly that one hit and the model stays
untested. -/
theorem entityNode_doPick_protocol_example :
    EntityNode.doPick exampleRayBBox exampleEntityNodeAtOrigin true exampleRay =
      ([⟨2, ⟨18, 0, 0⟩⟩], false) := by
  have h := (entityNode_doPick_protocol exampleRayBBox exampleEntityNodeAtOrigin
    exampleRay rfl).1 ⟨2, ⟨18, 0, 0⟩⟩
  apply h
  show EntityNode.boundsHit exampleRayBBox exampleEntityNodeAtOrigin exampleRay =
    some ⟨2, ⟨18, 0, 0⟩⟩
  simp only [EntityNode.boundsHit, exampleRayBBox, exampleRay,
    exampleEntityNodeAtOrigin, EntityNode.logicalBoundsVal,
    EntityNode.currentBounds, computeCachedBounds, idTransform, DefaultBounds,
    BBox.translate, BBox.containsPoint, Vec3.add, Vec3.le, Ray.pointAtDistance,
    Vec3.smul]
  norm_num [PickHit.mk.injEq, Vec3.mk.injEq]

/-- The face walk of `findFaceHit` returns exactly the first face in stored
order whose ray intersection is defined, together with its distance. -/
theorem findFaceHitAux_eq_some_iff (ray : Ray) (l : List Face) :
    ∀ (d : ℚ) (i : Nat),
      findFaceHitAux ray l = some (d, i) ↔
        ((∃ f, l.get? i = some f ∧ f.intersectWithRay ray = some d) ∧
         ∀ j, j < i → ∃ f, l.get? j = some f ∧ f.intersectWithRay ray = none) := by
  induction l with
  | nil =>
    intro d i
    simp [findFaceHitAux]
  | cons f rest ih =>
    intro d i
    cases hf : f.intersectWithRay ray with
    | some d0 =>
      simp only [findFaceHitAux, hf]
      cases i with
      | zero =>
        constructor
        · intro h
          injection h with h1
          injection h1 with ha hb
          subst ha
          exact ⟨⟨f, rfl, hf⟩, fun j hj => absurd hj (Nat.not_lt_zero j)⟩
        · rintro ⟨⟨f', hget, hint⟩, -⟩
          have hff : f = f' := by injection hget
          subst hff
          rw [hf] at hint
          injection hint with hd
          subst hd
          rfl
      | succ n =>
        constructor
        · intro h
          injection h with h1
          injection h1 with ha hb
          exact absurd hb (by omega)
        · rintro ⟨-, hall⟩
          obtain ⟨f', hget, hnone⟩ := hall 0 (Nat.succ_pos n)
          have hff : f = f' := by injection hget
          subst hff
          rw [hf] at hnone
          cases hnone
    | none =>
      simp only [findFaceHitAux, hf]
      rw [Option.map_eq_some']
      cases i with
      | zero =>
        constructor
        · rintro ⟨⟨d1, i1⟩, -, hp⟩
          injection hp with h1 h2
          exact absurd (h2 : i1 + 1 = 0) (by omega)
        · rintro ⟨⟨f', hget, hint⟩, -⟩
          have hff : f = f' := by injection hget
          subst hff
          rw [hf] at hint
          cases hint
      | succ n =>
        constructor
        · rintro ⟨⟨d1, i1⟩, hrest, hp⟩
          injection hp with h1 h2
          have ha : d1 = d := h1
          have h2n : i1 + 1 = n + 1 := h2
          have hin : i1 = n := by omega
          rw [ha, hin] at hrest
          obtain ⟨hfirst, hall⟩ := (ih d n).mp hrest
          refine ⟨hfirst, ?_⟩
          intro j hj
          cases j with
          | zero => exact ⟨f, rfl, hf⟩
          | succ k => exact hall k (by omega)
        · rintro ⟨hfirst, hall⟩
          refine ⟨(d, n), (ih d n).mpr ⟨hfirst, ?_⟩, rfl⟩
          intro j hj
          exact hall (j + 1) (by omega)

/-- C1: `findFaceHit` first tests the ray against the brush's bounding box;
a bounds miss returns no hit with zero individual face tests; otherwise the
result is `some (d, i)` exactly when face `i` is the first face in stored
index order whose ray intersection is defined, with distance `d` — the first
hit by stored face order, with no minimality requirement on `d`. -/
theorem findFaceHit_first_by_face_order (rayBBox : Ray → BBox → Option ℚ)
    (m : Brush) (ray : Ray) :
    (rayBBox ray m.bounds = none →
      BrushNode.findFaceHit rayBBox m ray = none ∧
      BrushNode.findFaceHitTests rayBBox m ray = 0) ∧
    (∀ d i, BrushNode.findFaceHit rayBBox m ray = some (d, i) ↔
      ((rayBBox ray m.bounds).isSome = true ∧
       (∃ f, m.faces.get? i = some f ∧ f.intersectWithRay ray = some d) ∧
       ∀ j, j < i → ∃ f, m.faces.get? j = some f ∧ f.intersectWithRay ray = none)) := by
  constructor
  · intro h
    constructor <;> simp [BrushNode.findFaceHit, BrushNode.findFaceHitTests, h]
  · intro d i
    cases hb : rayBBox ray m.bounds with
    | none =>
      simp [BrushNode.findFaceHit, hb]
    | some d0 =>
      simp only [BrushNode.findFaceHit, hb, Option.isSome_some, if_true, true_and]
      exact findFaceHitAux_eq_some_iff ray m.faces d i

/-- A face whose ray intersection is always at distance 10. -/
def exampleFaceFar : Face := ⟨false, fun _ => some 10⟩

/-- A face whose ray intersection is always at distance 1. -/
def exampleFaceNear : Face := ⟨false, fun _ => some 1⟩

/-- A brush whose stored face order puts the far face first. -/
def examplePickBrush : Brush :=
  ⟨⟨⟨0, 0, 0⟩, ⟨1, 1, 1⟩⟩, fun _ => false, [exampleFaceFar, exampleFaceNear]⟩

/-- Witness for C1: on the concrete brush the pick returns the far face at
index 0 because it comes first in stored order, not the nearer face at
index 1. -/
theorem findFaceHit_first_by_face_order_example :
    BrushNode.findFaceHit exampleRayBBox examplePickBrush exampleRay = some (10, 0) := by
  refine ((findFaceHit_first_by_face_order exampleRayBBox examplePickBrush
    exampleRay).2 10 0).mpr ?_
  exact ⟨rfl, ⟨exampleFaceFar, rfl, rfl⟩, fun j hj => absurd hj (Nat.not_lt_zero j)⟩

/-- C2: `intersectsPatch` returns `false` when the brush's and the grid's
bounds do not overlap; under overlapping bounds it returns `true` when the
brush contains some grid sample point; and when it contains none, it returns
`true` exactly when some row-adjacent or column-adjacent sample pair, taken
as a segment, meets some face with ray parameter in `[0, 1]` — and `false`
once all segment-face pairs are exhausted. -/
theorem intersectsPatch_cases (brush : Brush) (grid : PatchGrid) :
    (brush.bounds.intersectsBox grid.bounds = false →
      intersectsPatch brush grid = false) ∧
    (brush.bounds.intersectsBox grid.bounds = true →
      (∃ p ∈ grid.points, brush.containsPoint p = true) →
      intersectsPatch brush grid = true) ∧
    (brush.bounds.intersectsBox grid.bounds = true →
      (∀ p ∈ grid.points, brush.containsPoint p = false) →
      (intersectsPatch brush grid = true ↔
        ∃ f ∈ brush.faces,
          (∃ row < grid.pointRowCount, ∃ col < grid.pointColumnCount - 1,
            faceIntersectsEdge f (grid.point row col) (grid.point row (col + 1)) = true) ∨
          (∃ col < grid.pointColumnCount, ∃ row < grid.pointRowCount - 1,
            faceIntersectsEdge f (grid.point row col) (grid.point (row + 1) col) = true))) := by
  refine ⟨?_, ?_, ?_⟩
  · intro h
    simp [intersectsPatch, h]
  · intro h hp
    have hany : grid.points.any (fun p => brush.containsPoint p) = true := by
      rw [List.any_eq_true]
      obtain ⟨p, hmem, hc⟩ := hp
      exact ⟨p, hmem, hc⟩
    simp [intersectsPatch, h, hany]
  · intro h hp
    have hany : grid.points.any (fun p => brush.containsPoint p) = false := by
      rw [List.any_eq_false]
      intro p hmem
      simp [hp p hmem]
    simp [intersectsPatch, h, hany, List.any_eq_true, List.mem_range,
      Bool.or_eq_true]

/-- A brush that contains every point, with no faces. -/
def exampleContainBrush : Brush :=
  ⟨⟨⟨0, 0, 0⟩, ⟨1, 1, 1⟩⟩, fun _ => true, []⟩

/-- A one-sample patch grid at the origin. -/
def exampleGrid : PatchGrid :=
  ⟨1, 1, [⟨0, 0, 0⟩], ⟨⟨0, 0, 0⟩, ⟨0, 0, 0⟩⟩⟩

/-- Witness for C2: the concrete brush's bounds overlap the concrete grid's
bounds and the brush contains the grid's sample point, so the patch
intersection test succeeds. -/
theorem intersectsPatch_cases_example :
    intersectsPatch exampleContainBrush exampleGrid = true := by
  refine (intersectsPatch_cases exampleContainBrush exampleGrid).2.1 (by decide) ?_
  exact ⟨⟨0, 0, 0⟩, by simp [exampleGrid], rfl⟩

/-- A node is well formed when any patch grid it carries has at least one
sample point and a well-formed bounding box. -/
def Node.wf : Node → Prop
  | Node.patch g => g.points ≠ [] ∧ g.bounds.valid = true
  | _ => True

/-- Box containment implies box intersection, for a well-formed inner box. -/
theorem containsBox_implies_intersectsBox (a b : BBox) (hv : b.valid = true)
    (h : a.containsBox b = true) : a.intersectsBox b = true := by
  simp only [BBox.containsBox, BBox.intersectsBox, BBox.valid, Vec3.le,
    Bool.and_eq_true, decide_eq_true_eq] at hv h ⊢
  obtain ⟨⟨⟨h1, h2⟩, h3⟩, ⟨h4, h5⟩, h6⟩ := h
  obtain ⟨⟨v1, v2⟩, v3⟩ := hv
  refine ⟨⟨⟨?_, ?_⟩, ?_⟩, ⟨?_, ?_⟩, ?_⟩ <;> linarith

/-- C9: whenever a brush node's `contains` accepts a node, its `intersects`
accepts it too, across all six node classifications; for the box- and
brush-valued cases this is inherited from the corresponding property of the
underlying solid predicates, and for patches it is proved from the excerpt's
`containsPatch`/`intersectsPatch`. -/
theorem brushNode_contains_implies_intersects (ops : BrushOps) (m : Brush)
    (n : Node)
    (hBox : ∀ b lb, ops.containsBox b lb = true → ops.intersectsBox b lb = true)
    (hBrush : ∀ b b2, ops.containsBrush b b2 = true → ops.intersectsBrush b b2 = true)
    (hwf : n.wf)
    (hc : BrushNode.contains ops m n = true) :
    BrushNode.intersects ops m n = true := by
  cases n with
  | world lb => cases hc
  | layer lb => cases hc
  | group lb => exact hBox m lb hc
  | entity lb => exact hBox m lb hc
  | brush b => exact hBrush m b hc
  | patch g =>
    obtain ⟨hne, hv⟩ := hwf
    cases hcb : m.bounds.containsBox g.bounds with
    | false =>
      rw [show BrushNode.contains ops m (Node.patch g) = containsPatch m g from rfl] at hc
      simp [containsPatch, hcb] at hc
    | true =>
      have hall : g.points.all (fun p => m.containsPoint p) = true := by
        have hc2 : containsPatch m g = true := hc
        simpa [containsPatch, hcb] using hc2
      have hib : m.bounds.intersectsBox g.bounds = true :=
        containsBox_implies_intersectsBox _ _ hv hcb
      have hanyp : g.points.any (fun p => m.containsPoint p) = true := by
        obtain ⟨p, hpmem⟩ := List.exists_mem_of_ne_nil g.points hne
        rw [List.any_eq_true]
        rw [List.all_eq_true] at hall
        exact ⟨p, hpmem, hall p hpmem⟩
      show intersectsPatch m g = true
      simp [intersectsPatch, hib, hanyp]

/-- An operation table whose four predicates always answer `true`. -/
def exampleOpsTrue : BrushOps :=
  ⟨fun _ _ => true, fun _ _ => true, fun _ _ => true, fun _ _ => true⟩

/-- A concrete group node. -/
def exampleGroupNode : Node := Node.group ⟨⟨0, 0, 0⟩, ⟨1, 1, 1⟩⟩

/-- Witness for C9: with the concrete operation table the brush contains the
concrete group node, hence intersects it. -/
theorem brushNode_contains_implies_intersects_example :
    BrushNode.intersects exampleOpsTrue exampleContainBrush exampleGroupNode = true :=
  brushNode_contains_implies_intersects exampleOpsTrue exampleContainBrush
    exampleGroupNode (fun _ _ _ => rfl) (fun _ _ _ => rfl) trivial rfl

theorem length_modifyFace (l : List Face) (i : Nat) (g : Face → Face) :
    (modifyFace l i g).length = l.length := by
  induction l generalizing i with
  | nil => rfl
  | cons f rest ih =>
    cases i with
    | zero => simp [modifyFace]
    | succ n => simp [modifyFace, ih]

theorem countSelected_le_length (l : List Face) :
    countSelectedFaces l ≤ l.length := by
  induction l with
  | nil => simp [countSelectedFaces]
  | cons f rest ih =>
    simp only [countSelectedFaces, List.length_cons]
    cases f.selected <;> simp <;> omega

theorem countSelected_modify_select (l : List Face) (i : Nat) (f : Face)
    (hget : l.get? i = some f) (hsel : f.selected = false) :
    countSelectedFaces (modifyFace l i (fun x => { x with selected := true })) =
      countSelectedFaces l + 1 := by
  induction l generalizing i with
  | nil => cases hget
  | cons a rest ih =>
    cases i with
    | zero =>
      have haf : a = f := by injection hget
      subst haf
      simp [modifyFace, countSelectedFaces, hsel]
      omega
    | succ n =>
      have hget2 : rest.get? n = some f := hget
      simp only [modifyFace, countSelectedFaces, ih n hget2]
      omega

theorem countSelected_modify_deselect (l : List Face) (i : Nat) (f : Face)
    (hget : l.get? i = some f) (hsel : f.selected = true) :
    countSelectedFaces (modifyFace l i (fun x => { x with selected := false })) + 1 =
      countSelectedFaces l := by
  induction l generalizing i with
  | nil => cases hget
  | cons a rest ih =>
    cases i with
    | zero =>
      have haf : a = f := by injection hget
      subst haf
      simp [modifyFace, countSelectedFaces, hsel]
      omega
    | succ n =>
      have hget2 : rest.get? n = some f := hget
      simp only [modifyFace, countSelectedFaces]
      rw [← ih n hget2]
      omega

theorem countSelected_lt_length (l : List Face) (i : Nat) (f : Face)
    (hget : l.get? i = some f) (hsel : f.selected = false) :
    countSelectedFaces l < l.length := by
  induction l generalizing i with
  | nil => cases hget
  | cons a rest ih =>
    simp only [countSelectedFaces, List.length_cons]
    cases i with
    | zero =>
      have haf : a = f := by injection hget
      subst haf
      rw [hsel]
      have := countSelected_le_length rest
      simp
      omega
    | succ n =>
      have hget2 : rest.get? n = some f := hget
      have := ih n hget2
      cases a.selected <;> simp <;> omega

theorem countSelected_pos (l : List Face) (i : Nat) (f : Face)
    (hget : l.get? i = some f) (hsel : f.selected = true) :
    0 < countSelectedFaces l := by
  induction l generalizing i with
  | nil => cases hget
  | cons a rest ih =>
    simp only [countSelectedFaces]
    cases i with
    | zero =>
      have haf : a = f := by injection hget
      subst haf
      rw [hsel]
      simp
    | succ n =>
      have hget2 : rest.get? n = some f := hget
      have := ih n hget2
      omega

theorem countSelected_clearFaces (l : List Face) :
    countSelectedFaces (clearFaces l) = 0 := by
  induction l with
  | nil => rfl
  | cons f rest ih =>
    cases h : f.selected <;> simp [clearFaces, countSelectedFaces, h] <;>
      simpa [clearFaces] using ih

/-- The counter invariant a brush node maintains: the counter equals the
number of selected faces, and the face list fits in a `size_t`. -/
def goodState (s : BrushNodeState) : Prop :=
  s.selectedFaceCount = countSelectedFaces s.brush.faces ∧
  s.brush.faces.length < sizeTMod

theorem goodState_applyFaceOp (s : BrushNodeState) (op : FaceOp)
    (hs : goodState s) (hv : validFaceOp s op) :
    goodState (applyFaceOp s op) := by
  obtain ⟨hc, hl⟩ := hs
  cases op with
  | sel i =>
    obtain ⟨f, hget, hsel⟩ := hv
    constructor
    · show (s.selectedFaceCount + 1) % sizeTMod =
        countSelectedFaces (modifyFace s.brush.faces i _)
      rw [countSelected_modify_select _ _ _ hget hsel]
      have hlt : countSelectedFaces s.brush.faces < s.brush.faces.length :=
        countSelected_lt_length _ _ _ hget hsel
      rw [hc]
      exact Nat.mod_eq_of_lt (by omega)
    · show (modifyFace s.brush.faces i _).length < sizeTMod
      rw [length_modifyFace]
      exact hl
  | desel i =>
    obtain ⟨f, hget, hsel⟩ := hv
    have hpos : 0 < countSelectedFaces s.brush.faces :=
      countSelected_pos _ _ _ hget hsel
    have hle := countSelected_le_length s.brush.faces
    have hdes := countSelected_modify_deselect _ _ _ hget hsel
    constructor
    · show (s.selectedFaceCount + (sizeTMod - 1)) % sizeTMod =
        countSelectedFaces (modifyFace s.brush.faces i _)
      rw [hc]
      have hM : 0 < sizeTMod := by norm_num [sizeTMod]
      have hsplit : countSelectedFaces s.brush.faces + (sizeTMod - 1) =
          countSelectedFaces (modifyFace s.brush.faces i
            (fun x => { x with selected := false })) + 1 * sizeTMod := by
        omega
      rw [hsplit, Nat.add_mul_mod_self_right]
      exact Nat.mod_eq_of_lt (by omega)
    · show (modifyFace s.brush.faces i _).length < sizeTMod
      rw [length_modifyFace]
      exact hl

theorem goodState_applyFaceOps (s : BrushNodeState) (ops : List FaceOp)
    (hs : goodState s) (hv : validFaceOps s ops) :
    goodState (applyFaceOps s ops) := by
  induction ops generalizing s with
  | nil => exact hs
  | cons op rest ih => exact ih _ (goodState_applyFaceOp s op hs hv.1) hv.2

/-- A face that is not selected and intersects no ray. -/
def exampleUnselFace : Face := ⟨false, fun _ => none⟩

/-- A brush with exactly one unselected face. -/
def exampleOneFaceBrush : Brush :=
  ⟨⟨⟨0, 0, 0⟩, ⟨1, 1, 1⟩⟩, fun _ => false, [exampleUnselFace]⟩

/-- Counterexample for C5: the claim quantifies over every in-range
`selectFace`/`deselectFace` sequence, but a single `deselectFace` of an
unselected face wraps the `size_t` counter to `2^64 - 1`, making
`hasSelectedFaces` report `true` while zero faces are selected. -/
theorem selectedFaceCount_invariant_fails_unmatched_deselect :
    ¬ (BrushNodeState.hasSelectedFaces
         (BrushNodeState.deselectFace (mkBrushNode exampleOneFaceBrush) 0) = true ↔
       countSelectedFaces
         (BrushNodeState.deselectFace
           (mkBrushNode exampleOneFaceBrush) 0).brush.faces ≠ 0) := by
  intro h
  have h1 : BrushNodeState.hasSelectedFaces
      (BrushNodeState.deselectFace (mkBrushNode exampleOneFaceBrush) 0) = true := by
    decide
  have h2 : countSelectedFaces
      (BrushNodeState.deselectFace
        (mkBrushNode exampleOneFaceBrush) 0).brush.faces = 0 := by
    decide
  exact (h.mp h1) h2

/-- C5 (amended): for every sequence of in-range `selectFace`/`deselectFace`
calls in which each `selectFace` targets a currently unselected face and each
`deselectFace` a currently selected one, a fresh brush node ends with
`hasSelectedFaces` true exactly when the number of selected faces is nonzero
— maintained through the wrapping `size_t` counter — and replacing the whole
brush value via `setBrush` resynchronizes the counter by a full rescan. -/
theorem selectedFaceCount_invariant_valid_ops :
    (∀ (b : Brush) (ops : List FaceOp),
      b.faces.length < sizeTMod →
      validFaceOps (mkBrushNode b) ops →
      (BrushNodeState.hasSelectedFaces (applyFaceOps (mkBrushNode b) ops) = true ↔
       countSelectedFaces (applyFaceOps (mkBrushNode b) ops).brush.faces ≠ 0)) ∧
    (∀ (s : BrushNodeState) (b : Brush),
      (BrushNodeState.setBrush s b).selectedFaceCount =
        countSelectedFaces b.faces) := by
  constructor
  · intro b ops hlen hv
    have hg0 : goodState (mkBrushNode b) := by
      constructor
      · show (0 : Nat) = countSelectedFaces (clearFaces b.faces)
        rw [countSelected_clearFaces]
      · show (clearFaces b.faces).length < sizeTMod
        simpa [clearFaces] using hlen
    have hg := goodState_applyFaceOps _ ops hg0 hv
    rw [BrushNodeState.hasSelectedFaces, hg.1]
    simp [Nat.pos_iff_ne_zero]
  · intro s b
    rfl

/-- Witness for C5: selecting the concrete brush's single unselected face is
a valid sequence, and afterwards the invariant instance holds. -/
theorem selectedFaceCount_invariant_valid_ops_example :
    BrushNodeState.hasSelectedFaces
        (applyFaceOps (mkBrushNode exampleOneFaceBrush) [FaceOp.sel 0]) = true ↔
      countSelectedFaces
        (applyFaceOps (mkBrushNode exampleOneFaceBrush)
          [FaceOp.sel 0]).brush.faces ≠ 0 :=
  selectedFaceCount_invariant_valid_ops.1 exampleOneFaceBrush [FaceOp.sel 0]
    (by norm_num [exampleOneFaceBrush, sizeTMod])
    ⟨⟨exampleUnselFace, rfl, rfl⟩, trivial⟩

end TrenchBroom
